import Mathlib

/-!
Shallow embedding of the computational core of the ECAD design tool
(`src/App.js`): the grid snapper, the corner-geometry engine (chamfer and
fillet transforms), the resistance model, the shape-graph operations
(delete node, drag node, finish outline, resistance edit) and the point
sequence used by the SVG export serializer.

JavaScript numbers are modelled as real numbers (`ℝ`); `Math.hypot`,
`Math.acos`, `Math.tan`, `Math.atan2` become their Mathlib counterparts.
Flat coordinate arrays (`[x1, y1, x2, y2, ...]`) are modelled as `List ℝ`;
the helpers `toPoints`/`ofPoints` move between a flat array and the list of
its coordinate pairs (the stored arrays always have even length, one pair
per vertex).  JavaScript `null`/`undefined` polyline arguments are modelled
as `Option.none` in the `...JS` wrappers.
-/

noncomputable section

/-- A point: a pair of pixel coordinates. -/
abbrev Pt := ℝ × ℝ

/-- `Math.hypot a b`. -/
def hypot (a b : ℝ) : ℝ := Real.sqrt (a ^ 2 + b ^ 2)

/-- `Math.atan2 y x`, via the complex argument (range `(-π, π]`). -/
def atan2 (y x : ℝ) : ℝ := Complex.arg ⟨x, y⟩

/-- Chunk a flat coordinate array into its list of points; a dangling odd
coordinate is ignored. -/
def toPoints : List ℝ → List Pt
  | x :: y :: rest => (x, y) :: toPoints rest
  | _ => []

/-- Flatten a list of points back into a flat coordinate array. -/
def ofPoints : List Pt → List ℝ
  | [] => []
  | p :: rest => p.1 :: p.2 :: ofPoints rest

/-- The last two entries of a flat array (`pts[pts.length-2], pts[pts.length-1]`). -/
def lastTwo (pts : List ℝ) : List ℝ := pts.drop (pts.length - 2)

/-- `traceThickness` constant from `App.js` (physical trace thickness in meters). -/
def traceThickness : ℝ := 0.000035

/-- The `materialProperties` resistivity lookup: `materialProperties[material]?.resistivity`.
`none` models JavaScript `undefined` for an unknown material key. -/
def materialResistivity (material : String) : Option ℝ :=
  if material = "copper" then some 1.68e-8
  else if material = "aluminum" then some 2.82e-8
  else if material = "gold" then some 2.44e-8
  else if material = "silver" then some 1.59e-8
  else none

/-- Sum of Euclidean segment lengths over consecutive point pairs: the loop
`for (i = 0; i < pts.length - 2; i += 2) length += Math.hypot(...)`
in `calculateResistance` (and the equivalent `forEach` in `handleResistanceBlur`). -/
def segLength : List Pt → ℝ
  | p :: q :: rest => hypot (q.1 - p.1) (q.2 - p.2) + segLength (q :: rest)
  | _ => 0

/-- `calculateResistance(pts, material, width)` from `App.js`: the summed pixel
length is divided by 1000 (mm → m); `return rho ? (rho * length) / (width *
traceThickness) : 0` returns 0 when the resistivity is `undefined` or 0. -/
def calculateResistance (pts : List ℝ) (material : String) (width : ℝ) : ℝ :=
  let len := segLength (toPoints pts) / 1000
  match materialResistivity material with
  | none => 0
  | some rho => if rho = 0 then 0 else rho * len / (width * traceThickness)

/-- The width computed by `handleResistanceBlur` for a valid target resistance:
`newW = (rho * length) / (Rval * traceThickness)`, with `length` summed over the
connection's raw points exactly as in `calculateResistance`.  The source reads
`materialProperties[material].resistivity` directly (the material of a stored
connection is always a known key); `getD 0` supplies a default never used there. -/
def widthFromResistance (Rval : ℝ) (material : String) (pts : List ℝ) : ℝ :=
  let len := segLength (toPoints pts) / 1000
  let rho := (materialResistivity material).getD 0
  rho * len / (Rval * traceThickness)

/-- `snapToGrid(x, y)` from `App.js`: when the grid is shown, each coordinate is
`Math.round(c / gridSpacing) * gridSpacing`; `Math.round` is `⌊c + 1/2⌋`
(half-up, toward `+∞`), which is Mathlib's `round`. -/
def snapToGrid (showGrid : Bool) (gridSpacing x y : ℝ) : ℝ × ℝ :=
  if showGrid then
    ((round (x / gridSpacing) : ℝ) * gridSpacing,
     (round (y / gridSpacing) : ℝ) * gridSpacing)
  else (x, y)

/-- One iteration of the `getChamferPoints` loop at interior vertex `p1` with
neighbors `p0`, `p2`: when both adjacent segments have nonzero length
(`if (d1 && d2)`), push the two chamfer offset points; otherwise push the
vertex unchanged. -/
def chamferCorner (L : ℝ) (p0 p1 p2 : Pt) : List ℝ :=
  let d1 := hypot (p0.1 - p1.1) (p0.2 - p1.2)
  let d2 := hypot (p2.1 - p1.1) (p2.2 - p1.2)
  if d1 ≠ 0 ∧ d2 ≠ 0 then
    [p1.1 + (p0.1 - p1.1) / d1 * L, p1.2 + (p0.2 - p1.2) / d1 * L,
     p1.1 + (p2.1 - p1.1) / d2 * L, p1.2 + (p2.2 - p1.2) / d2 * L]
  else
    [p1.1, p1.2]

/-- The `for (let i = 1; i < n - 1; i++)` loop of `getChamferPoints`: one
`chamferCorner` per consecutive vertex triple. -/
def chamferInterior (L : ℝ) : List Pt → List ℝ
  | p0 :: p1 :: p2 :: rest => chamferCorner L p0 p1 p2 ++ chamferInterior L (p1 :: p2 :: rest)
  | _ => []

/-- `getChamferPoints` from `App.js` on a non-null flat array: arrays with
fewer than 6 entries are returned unchanged; otherwise the output is the first
point, the chamfered interior, and the last point. -/
def getChamferPoints (L : ℝ) (pts : List ℝ) : List ℝ :=
  if pts.length < 6 then pts
  else pts.take 2 ++ chamferInterior L (toPoints pts) ++ lastTwo pts

/-- `getChamferPoints` including the falsy guard that returns a
`null`/`undefined` input unchanged, modelled by `Option`. -/
def getChamferPointsJS (L : ℝ) : Option (List ℝ) → Option (List ℝ)
  | none => none
  | some pts => some (getChamferPoints L pts)

/-- The discretized arc emitted by `getFilletPoints` for a non-degenerate,
non-collinear corner (the computation after the `bl < 1e-6` check). -/
def filletArcAt (r : ℝ) (p0 p1 p2 : Pt) : List ℝ :=
  let d0 := hypot (p0.1 - p1.1) (p0.2 - p1.2)
  let d1 := hypot (p2.1 - p1.1) (p2.2 - p1.2)
  let u0x := (p0.1 - p1.1) / d0
  let u0y := (p0.2 - p1.2) / d0
  let u1x := (p2.1 - p1.1) / d1
  let u1y := (p2.2 - p1.2) / d1
  let dot := max (-1) (min 1 (u0x * u1x + u0y * u1y))
  let ang := Real.arccos dot
  let t := r / Real.tan (ang / 2)
  let tp0x := p1.1 + u0x * t
  let tp0y := p1.2 + u0y * t
  let tp2x := p1.1 + u1x * t
  let tp2y := p1.2 + u1y * t
  let bl := hypot (u0x + u1x) (u0y + u1y)
  let ubx := (u0x + u1x) / bl
  let uby := (u0y + u1y) / bl
  let dist := r / Real.sin (ang / 2)
  let cx := p1.1 + ubx * dist
  let cy := p1.2 + uby * dist
  let start := atan2 (tp0y - cy) (tp0x - cx)
  let stop := atan2 (tp2y - cy) (tp2x - cx)
  let delta0 := stop - start
  let delta1 := if delta0 > Real.pi then delta0 - 2 * Real.pi else delta0
  let delta := if delta1 < -Real.pi then delta1 + 2 * Real.pi else delta1
  let steps := max 4 (Int.toNat ⌈|delta| / (Real.pi / 12)⌉)
  (List.range (steps + 1)).flatMap fun s =>
    [cx + Real.cos (start + delta * s / steps) * r,
     cy + Real.sin (start + delta * s / steps) * r]

/-- One iteration of the `getFilletPoints` loop at interior vertex `p1`: a
near-zero adjacent segment (`d0 < 1e-6 || d1 < 1e-6`) or a near-zero bisector
(`bl < 1e-6`, the collinear-reversal case) passes the vertex through
unchanged; otherwise the corner is replaced by a discretized arc.  The
bisector condition is spelled out in terms of the unit vectors
`u0 = (p0 - p1)/d0` and `u1 = (p2 - p1)/d1` exactly as computed in the source. -/
def filletCorner (r : ℝ) (p0 p1 p2 : Pt) : List ℝ :=
  if hypot (p0.1 - p1.1) (p0.2 - p1.2) < 1e-6 ∨ hypot (p2.1 - p1.1) (p2.2 - p1.2) < 1e-6 then
    [p1.1, p1.2]
  else if hypot
      ((p0.1 - p1.1) / hypot (p0.1 - p1.1) (p0.2 - p1.2) +
        (p2.1 - p1.1) / hypot (p2.1 - p1.1) (p2.2 - p1.2))
      ((p0.2 - p1.2) / hypot (p0.1 - p1.1) (p0.2 - p1.2) +
        (p2.2 - p1.2) / hypot (p2.1 - p1.1) (p2.2 - p1.2)) < 1e-6 then
    [p1.1, p1.2]
  else filletArcAt r p0 p1 p2

/-- The `for (let i = 1; i < n - 1; i++)` loop of `getFilletPoints`. -/
def filletInterior (r : ℝ) : List Pt → List ℝ
  | p0 :: p1 :: p2 :: rest => filletCorner r p0 p1 p2 ++ filletInterior r (p1 :: p2 :: rest)
  | _ => []

/-- `getFilletPoints` from `App.js` on a non-null flat array. -/
def getFilletPoints (r : ℝ) (pts : List ℝ) : List ℝ :=
  if pts.length < 6 then pts
  else pts.take 2 ++ filletInterior r (toPoints pts) ++ lastTwo pts

/-- `getFilletPoints` including the guard for `null`/`undefined` input. -/
def getFilletPointsJS (r : ℝ) : Option (List ℝ) → Option (List ℝ)
  | none => none
  | some pts => some (getFilletPoints r pts)

/-- The `lineType` state: `"linear" | "chamfer" | "fillet" | "bezier"`. -/
inductive LineType where
  | linear
  | chamfer
  | fillet
  | bezier

/-- The on-screen point sequence of a trace/outline (`App.js` F.LIG and outline
layers): `lineType === "chamfer" ? getChamferPoints(line.points) : lineType ===
"fillet" ? getFilletPoints(line.points) : line.points`. -/
def renderPoints (lt : LineType) (chamferLength filletRadius : ℝ) (pts : List ℝ) : List ℝ :=
  match lt with
  | LineType.chamfer => getChamferPoints chamferLength pts
  | LineType.fillet => getFilletPoints filletRadius pts
  | _ => pts

/-- The point sequence written into an exported SVG `<polyline>` by
`performExport`: `t.points.filter((_, i) => i % 2 === 0).map((_, i) =>
...points[2*i]...points[2*i+1]...)`.  The filtered array has `⌈n/2⌉` entries,
and entry `i` is the coordinate pair at flat indices `2i, 2i+1` of the RAW
stored array (the string formatting of each pair is elided). -/
def exportPairs (pts : List ℝ) : List Pt :=
  (List.range ((pts.length + 1) / 2)).map fun i =>
    (pts.getD (2 * i) 0, pts.getD (2 * i + 1) 0)

/-- A record in the `shapes` collection.  Nodes, connections and outlines are
heterogeneous JavaScript objects; fields missing on a given shape type are
modelled by `Option` or a default value (JavaScript `undefined`). -/
structure Shape where
  id : ℤ
  type : String
  nodeType : Option String := none
  x : ℝ := 0
  y : ℝ := 0
  radius : ℝ := 0
  color : String := ""
  layer : String := ""
  points : List ℝ := []
  node1Id : Option ℤ := none
  node2Id : Option ℤ := none
  material : String := ""
  width : ℝ := 0

/-- `handleDelete` with a selected node of id `nid`:
`shapes.filter(s => s.id !== nid && !(s.type === "connection" && (s.node1Id ===
nid || s.node2Id === nid)))`. -/
def handleDelete (shapes : List Shape) (nid : ℤ) : List Shape :=
  shapes.filter fun s =>
    decide (s.id ≠ nid ∧ ¬(s.type = "connection" ∧ (s.node1Id = some nid ∨ s.node2Id = some nid)))

/-- The connection-endpoint update performed by `handleNodeDrag` on one shape:
`pts[0] = x; pts[1] = y` when `node1Id` matches, `pts[len-2] = x;
pts[len-1] = y` when `node2Id` matches. -/
def dragConnPoints (nid : ℤ) (x y : ℝ) (s : Shape) : List ℝ :=
  let pts0 := s.points
  let pts1 := if s.node1Id = some nid then (pts0.set 0 x).set 1 y else pts0
  if s.node2Id = some nid then (pts1.set (pts1.length - 2) x).set (pts1.length - 1) y else pts1

/-- The per-shape callback of `handleNodeDrag`'s `setShapes(prev => prev.map(...))`:
the dragged node gets the new position; every connection gets its matching
endpoints updated (a copy of its points array is rebuilt either way). -/
def dragShape (nid : ℤ) (x y : ℝ) (s : Shape) : Shape :=
  if s.id = nid then { s with x := x, y := y }
  else if s.type = "connection" then { s with points := dragConnPoints nid x y s }
  else s

/-- `handleNodeDrag` after snapping, acting on the shape collection in one
single map. -/
def handleNodeDrag (shapes : List Shape) (nid : ℤ) (x y : ℝ) : List Shape :=
  shapes.map (dragShape nid x y)

/-- The slice of component state read and written by the resistance-edit
handlers.  `tempDisplay` is the numeric value shown in the resistance text
input (`tempResistance` holds its decimal string in the source; the
string/number conversion is elided). -/
structure ResistState where
  shapes : List Shape
  selectedConnection : Option Shape
  traceWidth : ℝ
  resistance : ℝ
  tempDisplay : ℝ

/-- `Number(R.toFixed(2))`: rounding to two decimals, ties toward `+∞`. -/
def round2 (x : ℝ) : ℝ := (round (100 * x) : ℝ) / 100

/-- `handleWidthChange(val)` from `App.js`: always records the new trace width;
when a non-outline connection is selected, its stored width is updated in the
shape collection and the displayed resistance is recomputed. -/
def handleWidthChange (st : ResistState) (val : ℝ) : ResistState :=
  let st1 := { st with traceWidth := val }
  match st1.selectedConnection with
  | none => st1
  | some conn =>
    if conn.layer = "outline" then st1
    else
      let updated := { conn with width := val }
      let R := calculateResistance updated.points updated.material val
      { st1 with
        shapes := st1.shapes.map fun s => if s.id = updated.id then updated else s,
        selectedConnection := some updated,
        resistance := round2 R,
        tempDisplay := round2 R }

/-- `handleResistanceBlur` from `App.js`.  `Rval` is the result of
`parseFloat(tempResistance)`, with `none` modelling `NaN`.  An absent or
outline selection is a no-op; an invalid target restores the displayed value;
a valid target solves the width and applies `handleWidthChange`, then records
the entered resistance. -/
def handleResistanceBlur (st : ResistState) (Rval : Option ℝ) : ResistState :=
  match st.selectedConnection with
  | none => st
  | some conn =>
    if conn.layer = "outline" then st
    else
      match Rval with
      | none => { st with tempDisplay := st.resistance }
      | some R =>
        if R ≤ 0 then { st with tempDisplay := st.resistance }
        else
          let newW := widthFromResistance R conn.material conn.points
          { handleWidthChange st newW with resistance := R }

/-- The slice of component state read and written by `finishOutline`. -/
structure OutlineState where
  shapes : List Shape
  outlinePath : List ℝ
  isDrawingOutline : Bool
  traceWidth : ℝ

/-- `finishOutline` from `App.js`: fewer than 4 accumulated coordinates
(fewer than 2 points) clears the in-progress path and leaves the collection
alone; otherwise the path is closed by appending its first point and stored
as a new outline shape (`newId` models `Date.now()`). -/
def finishOutline (st : OutlineState) (newId : ℤ) : OutlineState :=
  if st.outlinePath.length < 4 then
    { st with outlinePath := [], isDrawingOutline := false }
  else
    let sx := st.outlinePath.getD 0 0
    let sy := st.outlinePath.getD 1 0
    let shape : Shape :=
      { id := newId, type := "outline", points := st.outlinePath ++ [sx, sy],
        width := st.traceWidth, color := "limegreen", layer := "outline" }
    { st with shapes := st.shapes ++ [shape], outlinePath := [], isDrawingOutline := false }

/-- The turn angle at interior vertex `p1` is exactly `π`: both adjacent
segments are non-degenerate and their unit vectors (as computed in
`getFilletPoints`) are exact opposites. -/
def collinearAt (p0 p1 p2 : Pt) : Prop :=
  0 < hypot (p0.1 - p1.1) (p0.2 - p1.2) ∧ 0 < hypot (p2.1 - p1.1) (p2.2 - p1.2) ∧
  (p0.1 - p1.1) / hypot (p0.1 - p1.1) (p0.2 - p1.2) +
    (p2.1 - p1.1) / hypot (p2.1 - p1.1) (p2.2 - p1.2) = 0 ∧
  (p0.2 - p1.2) / hypot (p0.1 - p1.1) (p0.2 - p1.2) +
    (p2.2 - p1.2) / hypot (p2.1 - p1.1) (p2.2 - p1.2) = 0

/-- Every interior vertex of the polyline has collinear (angle `π`),
non-degenerate adjacent segments. -/
def allCollinear : List Pt → Prop
  | p0 :: p1 :: p2 :: rest => collinearAt p0 p1 p2 ∧ allCollinear (p1 :: p2 :: rest)
  | _ => True

/-- A concrete power node at the origin (witness data). -/
def nodeA : Shape :=
  { id := 1, type := "node", nodeType := some "power", x := 0, y := 0,
    radius := 10, color := "red", layer := "footprint" }

/-- A concrete ground node at `(100, 0)` (witness data). -/
def nodeB : Shape :=
  { id := 2, type := "node", nodeType := some "ground", x := 100, y := 0,
    radius := 10, color := "black", layer := "footprint" }

/-- A concrete copper connection from `nodeA` to `nodeB` (witness data). -/
def connAB : Shape :=
  { id := 3, type := "connection", points := [0, 0, 100, 0],
    node1Id := some 1, node2Id := some 2, material := "copper",
    width := 0.005, color := "orange", layer := "f_lig" }

/-- A concrete outline shape (witness data). -/
def outlC : Shape :=
  { id := 4, type := "outline", points := [0, 0, 30, 0, 30, 30, 0, 0],
    width := 0.005, color := "limegreen", layer := "outline" }

/-- A concrete shape collection (witness data). -/
def shapes4 : List Shape := [nodeA, nodeB, connAB, outlC]

/-- A concrete resistance-edit state with `connAB` selected (witness data). -/
def stAB : ResistState :=
  { shapes := shapes4, selectedConnection := some connAB,
    traceWidth := 0.005, resistance := 0.01, tempDisplay := 0.01 }

/-- A concrete in-progress outline drawing state (witness data). -/
def stOutline : OutlineState :=
  { shapes := [], outlinePath := [0, 0, 30, 0, 30, 30], isDrawingOutline := true,
    traceWidth := 0.005 }

end

/-! ### Helper lemmas about the embedding -/

theorem hypot_zero_right (a : ℝ) : hypot a 0 = |a| := by
  simp [hypot, Real.sqrt_sq_eq_abs]

theorem hypot_zero_left (b : ℝ) : hypot 0 b = |b| := by
  simp [hypot, Real.sqrt_sq_eq_abs]

theorem hypot_zero : hypot (0 : ℝ) 0 = 0 := by
  simp [hypot]

theorem ofPoints_length (l : List Pt) : (ofPoints l).length = 2 * l.length := by
  induction l with
  | nil => simp [ofPoints]
  | cons p rest ih => simp [ofPoints, ih]; ring

theorem toPoints_ofPoints (l : List Pt) : toPoints (ofPoints l) = l := by
  induction l with
  | nil => rfl
  | cons p rest ih => simp [ofPoints, toPoints, ih]

theorem ofPoints_append (l1 l2 : List Pt) :
    ofPoints (l1 ++ l2) = ofPoints l1 ++ ofPoints l2 := by
  induction l1 with
  | nil => rfl
  | cons p rest ih => simp [ofPoints, ih]

theorem lastTwo_ofPoints_cons (p : Pt) (t : List Pt) (h : t ≠ []) :
    lastTwo (ofPoints (p :: t)) = lastTwo (ofPoints t) := by
  obtain ⟨k, hk⟩ : ∃ k, (ofPoints t).length = k + 2 := by
    refine ⟨(ofPoints t).length - 2, ?_⟩
    rw [ofPoints_length]
    cases t with
    | nil => exact absurd rfl h
    | cons q t2 => simp [List.length_cons]
  show (p.1 :: p.2 :: ofPoints t).drop ((p.1 :: p.2 :: ofPoints t).length - 2) =
    (ofPoints t).drop ((ofPoints t).length - 2)
  rw [show (p.1 :: p.2 :: ofPoints t).length - 2 = k + 2 by simp [List.length_cons, hk],
    show (ofPoints t).length - 2 = k by omega]
  rfl

theorem ofPoints_dropLast_lastTwo : ∀ (t : List Pt), t ≠ [] →
    ofPoints t.dropLast ++ lastTwo (ofPoints t) = ofPoints t
  | [], h => absurd rfl h
  | [q], _ => by
    simp [ofPoints, lastTwo, List.dropLast]
  | q :: q2 :: t2, _ => by
    have ih := ofPoints_dropLast_lastTwo (q2 :: t2) (by simp)
    rw [lastTwo_ofPoints_cons q (q2 :: t2) (by simp)]
    show ofPoints (q :: (q2 :: t2).dropLast) ++ lastTwo (ofPoints (q2 :: t2)) =
      ofPoints (q :: q2 :: t2)
    rw [show ofPoints (q :: (q2 :: t2).dropLast) = q.1 :: q.2 :: ofPoints (q2 :: t2).dropLast
      from rfl]
    rw [show ofPoints (q :: q2 :: t2) = q.1 :: q.2 :: ofPoints (q2 :: t2) from rfl]
    rw [List.cons_append, List.cons_append, ih]

theorem filletCorner_collinear (r : ℝ) (p0 p1 p2 : Pt) (h : collinearAt p0 p1 p2) :
    filletCorner r p0 p1 p2 = [p1.1, p1.2] := by
  obtain ⟨h0, h1, hx, hy⟩ := h
  unfold filletCorner
  split_ifs with hd hb
  · rfl
  · rfl
  · exfalso
    apply hb
    rw [hx, hy, hypot_zero]
    norm_num

theorem filletInterior_collinear (r : ℝ) : ∀ (l : List Pt) (a b : Pt),
    allCollinear (a :: b :: l) → filletInterior r (a :: b :: l) = ofPoints (b :: l).dropLast
  | [], a, b, _ => by
    simp [filletInterior, List.dropLast, ofPoints]
  | c :: l2, a, b, h => by
    have hh : collinearAt a b c ∧ allCollinear (b :: c :: l2) := h
    have ih := filletInterior_collinear r l2 b c hh.2
    show filletCorner r a b c ++ filletInterior r (b :: c :: l2) = _
    rw [filletCorner_collinear r a b c hh.1, ih]
    show [b.1, b.2] ++ ofPoints (c :: l2).dropLast = ofPoints (b :: (c :: l2).dropLast)
    rfl

theorem chamfer_take_two (L : ℝ) (pts : List ℝ) :
    (getChamferPoints L pts).take 2 = pts.take 2 := by
  unfold getChamferPoints
  split_ifs with hlen
  · rfl
  · have h2 : (pts.take 2).length = 2 := by
      rw [List.length_take]; omega
    rw [List.append_assoc]
    calc (pts.take 2 ++ (chamferInterior L (toPoints pts) ++ lastTwo pts)).take 2
        = (pts.take 2 ++ (chamferInterior L (toPoints pts) ++ lastTwo pts)).take
            (pts.take 2).length := by rw [h2]
      _ = pts.take 2 := List.take_left _ _

theorem chamfer_lastTwo (L : ℝ) (pts : List ℝ) :
    lastTwo (getChamferPoints L pts) = lastTwo pts := by
  unfold getChamferPoints
  split_ifs with hlen
  · rfl
  · have hC : (lastTwo pts).length = 2 := by
      unfold lastTwo
      rw [List.length_drop]; omega
    show lastTwo ((pts.take 2 ++ chamferInterior L (toPoints pts)) ++ lastTwo pts) = lastTwo pts
    · unfold lastTwo
      rw [show ((pts.take 2 ++ chamferInterior L (toPoints pts)) ++ pts.drop (pts.length - 2)).length - 2
          = (pts.take 2 ++ chamferInterior L (toPoints pts)).length by
        simp only [List.length_append]
        have := hC
        unfold lastTwo at this
        omega]
      exact List.drop_left _ _

theorem exportPairs_ofPoints : ∀ l : List Pt, exportPairs (ofPoints l) = l
  | [] => by simp [exportPairs, ofPoints]
  | p :: l2 => by
    have ih := exportPairs_ofPoints l2
    unfold exportPairs at ih ⊢
    have hlen : ((ofPoints (p :: l2)).length + 1) / 2 = l2.length + 1 := by
      rw [ofPoints_length]
      simp [List.length_cons]
      omega
    have hlen2 : ((ofPoints l2).length + 1) / 2 = l2.length := by
      rw [ofPoints_length]; omega
    rw [hlen]
    rw [hlen2] at ih
    rw [List.range_succ_eq_map, List.map_cons, List.map_map]
    have h0 : ((ofPoints (p :: l2)).getD (2 * 0) 0, (ofPoints (p :: l2)).getD (2 * 0 + 1) 0) = p := by
      show ((p.1 :: p.2 :: ofPoints l2).getD 0 0, (p.1 :: p.2 :: ofPoints l2).getD 1 0) = p
      rfl
    rw [h0]
    congr 1

theorem roundtrip_aux (rho A w t : ℝ) (hrho : rho ≠ 0) (hA : A ≠ 0) (hw : w ≠ 0) (ht : t ≠ 0) :
    rho * A / (rho * A / (w * t) * t) = w := by
  field_simp
  ring

theorem traceThickness_ne : traceThickness ≠ 0 := by
  unfold traceThickness
  norm_num

theorem materialResistivity_copper : materialResistivity "copper" = some 1.68e-8 := by
  simp [materialResistivity]

theorem segLength_scenario : segLength (toPoints [0, 0, 100, 0]) = 100 := by
  show hypot (100 - 0) (0 - 0) + segLength [((100 : ℝ), (0 : ℝ))] = 100
  norm_num [segLength, hypot_zero_right]

theorem calcRes_copper_scenario :
    calculateResistance [0, 0, 100, 0] "copper" 0.005 = 0.0096 := by
  have h1 : calculateResistance [0, 0, 100, 0] "copper" 0.005 =
      1.68e-8 * (segLength (toPoints [0, 0, 100, 0]) / 1000) / (0.005 * traceThickness) := by
    simp only [calculateResistance, materialResistivity_copper]
    rw [if_neg (by norm_num)]
  rw [h1, segLength_scenario]
  unfold traceThickness
  norm_num

theorem roundtrip_core (pts : List ℝ) (w rho : ℝ) (m : String)
    (hmr : materialResistivity m = some rho) (hrho : rho ≠ 0)
    (hlen : 0 < segLength (toPoints pts)) (hw : 0 < w) :
    widthFromResistance (calculateResistance pts m w) m pts = w := by
  have h1 : calculateResistance pts m w =
      rho * (segLength (toPoints pts) / 1000) / (w * traceThickness) := by
    simp only [calculateResistance, hmr]
    rw [if_neg hrho]
  have h2 : widthFromResistance (calculateResistance pts m w) m pts =
      rho * (segLength (toPoints pts) / 1000) /
        (rho * (segLength (toPoints pts) / 1000) / (w * traceThickness) * traceThickness) := by
    simp only [widthFromResistance, hmr, Option.getD_some, h1]
  rw [h2]
  exact roundtrip_aux rho _ w traceThickness hrho
    (ne_of_gt (by positivity)) (ne_of_gt hw) traceThickness_ne

theorem round_mul_bounds (s c : ℝ) (hs : 0 < s) :
    -s / 2 ≤ c - (round (c / s) : ℝ) * s ∧ c - (round (c / s) : ℝ) * s < s / 2 := by
  have hs' : s ≠ 0 := ne_of_gt hs
  have h1 : (round (c / s) : ℝ) ≤ c / s + 1 / 2 := by
    rw [round_eq]
    exact_mod_cast Int.floor_le (c / s + 1 / 2)
  have h2 : c / s - 1 / 2 < (round (c / s) : ℝ) := by
    rw [round_eq]
    have h3 := Int.lt_floor_add_one (c / s + 1 / 2)
    push_cast at h3 ⊢
    linarith
  have hA : (round (c / s) : ℝ) * s ≤ c + s / 2 :=
    calc (round (c / s) : ℝ) * s ≤ (c / s + 1 / 2) * s :=
          mul_le_mul_of_nonneg_right h1 hs.le
      _ = c + s / 2 := by field_simp; ring
  have hB : c - s / 2 < (round (c / s) : ℝ) * s :=
    calc c - s / 2 = (c / s - 1 / 2) * s := by field_simp; ring
      _ < (round (c / s) : ℝ) * s := mul_lt_mul_of_pos_right h2 hs
  constructor
  · linarith
  · linarith

/-! ### Claim C3 -/

/-- C3 (counterexample): the claim says snapping rounds half-away-from-zero, so
with spacing 2 the coordinate -1 (exactly halfway, negative) would snap to -2;
the code uses `Math.round` (ties toward `+∞`) and snaps it to 0 instead. -/
theorem snap_half_counterexample :
    snapToGrid true 2 (-1) 0 = (0, 0) ∧ ((0 : ℝ), (0 : ℝ)) ≠ ((-2 : ℝ), (0 : ℝ)) := by
  constructor
  · show (((round ((-1 : ℝ) / 2) : ℝ) * 2, (round ((0 : ℝ) / 2) : ℝ) * 2) : ℝ × ℝ) = (0, 0)
    norm_num [round_eq]
  · intro h
    have := congrArg Prod.fst h
    norm_num at this

/-- C3 (amended): `snapToGrid` with snapping disabled returns the input
unchanged; with snapping enabled it returns, for each coordinate
independently, an integer multiple of the spacing within half a spacing of
the coordinate, with a coordinate exactly halfway between two multiples
snapped to the larger multiple (toward `+∞`), not away from zero. -/
theorem snap_nearest_amended (s x y : ℝ) (hs : 0 < s) :
    snapToGrid false s x y = (x, y) ∧
    ∃ m k : ℤ, snapToGrid true s x y = ((m : ℝ) * s, (k : ℝ) * s) ∧
      -s / 2 ≤ x - (m : ℝ) * s ∧ x - (m : ℝ) * s < s / 2 ∧
      -s / 2 ≤ y - (k : ℝ) * s ∧ y - (k : ℝ) * s < s / 2 := by
  obtain ⟨hx1, hx2⟩ := round_mul_bounds s x hs
  obtain ⟨hy1, hy2⟩ := round_mul_bounds s y hs
  exact ⟨rfl, round (x / s), round (y / s), rfl, hx1, hx2, hy1, hy2⟩

/-- Witness for the amended C3 at spacing 2 and input (5, 7). -/
theorem snap_nearest_amended_witness :
    snapToGrid false 2 5 7 = (5, 7) ∧
    ∃ m k : ℤ, snapToGrid true 2 5 7 = ((m : ℝ) * 2, (k : ℝ) * 2) ∧
      -(2 : ℝ) / 2 ≤ 5 - (m : ℝ) * 2 ∧ (5 : ℝ) - (m : ℝ) * 2 < 2 / 2 ∧
      -(2 : ℝ) / 2 ≤ 7 - (k : ℝ) * 2 ∧ (7 : ℝ) - (k : ℝ) * 2 < 2 / 2 :=
  snap_nearest_amended 2 5 7 (by norm_num)

/-! ### Claim C4 -/

/-- C4: for every known material, every polyline of positive total length and
every positive width, solving the width back from the computed resistance
(`handleResistanceBlur`'s formula) reproduces the width exactly. -/
theorem resistance_width_roundtrip (pts : List ℝ) (m : String) (w : ℝ)
    (hm : m = "copper" ∨ m = "aluminum" ∨ m = "gold" ∨ m = "silver")
    (hlen : 0 < segLength (toPoints pts)) (hw : 0 < w) :
    widthFromResistance (calculateResistance pts m w) m pts = w := by
  rcases hm with h | h | h | h <;> subst h
  · exact roundtrip_core pts w 1.68e-8 "copper" (by simp [materialResistivity]) (by norm_num) hlen hw
  · exact roundtrip_core pts w 2.82e-8 "aluminum" (by simp [materialResistivity]) (by norm_num) hlen hw
  · exact roundtrip_core pts w 2.44e-8 "gold" (by simp [materialResistivity]) (by norm_num) hlen hw
  · exact roundtrip_core pts w 1.59e-8 "silver" (by simp [materialResistivity]) (by norm_num) hlen hw

/-- Witness for C4: the concrete copper connection (0,0)-(100,0) at width 0.005. -/
theorem resistance_width_roundtrip_witness :
    widthFromResistance (calculateResistance [0, 0, 100, 0] "copper" 0.005) "copper"
      [0, 0, 100, 0] = 0.005 :=
  resistance_width_roundtrip [0, 0, 100, 0] "copper" 0.005 (Or.inl rfl)
    (by rw [segLength_scenario]; norm_num) (by norm_num)

/-! ### Claim C5 -/

/-- C5 (counterexample): for the two-point copper connection (0,0)-(100,0) at
width 0.005 m the code returns 0.0096 Ω, which is not within 0.1 Ω of the
claimed 9.6 Ω. -/
theorem resistance_scenario_counterexample :
    calculateResistance [0, 0, 100, 0] "copper" 0.005 = 0.0096 ∧
    ¬ |(0.0096 : ℝ) - 9.6| ≤ 0.1 := by
  refine ⟨calcRes_copper_scenario, ?_⟩
  rw [abs_of_nonpos (by norm_num)]
  norm_num

/-- C5 (amended): `calculateResistance` sums Euclidean lengths of consecutive
raw point pairs, divides by 1000, and applies `R = ρ·length/(width·thickness)`
with thickness 0.000035; for the scenario polyline (0,0),(100,0), copper,
width 0.005 it returns 0.0096 Ω (9.6 mΩ), not 9.6 Ω. -/
theorem resistance_scenario_amended :
    traceThickness = 0.000035 ∧
    calculateResistance [0, 0, 100, 0] "copper" 0.005 = 0.0096 :=
  ⟨rfl, calcRes_copper_scenario⟩

/-! ### Claim C10 -/

/-- C10: `getChamferPoints` and `getFilletPoints` return a `null`/`undefined`
input and any flat array with fewer than 6 entries (fewer than 3 points — in
particular every 2-point polyline) unchanged, so every corner style acts as
the identity on a polyline with no interior vertex. -/
theorem degenerate_polyline_identity (L r : ℝ) (pts : List ℝ) (h : pts.length < 6) :
    getChamferPoints L pts = pts ∧ getFilletPoints r pts = pts ∧
    getChamferPointsJS L none = none ∧ getFilletPointsJS r none = none ∧
    ∀ lt : LineType, renderPoints lt L r pts = pts := by
  refine ⟨by simp [getChamferPoints, h], by simp [getFilletPoints, h], rfl, rfl, ?_⟩
  intro lt
  cases lt <;> simp [renderPoints, getChamferPoints, getFilletPoints, h]

/-- Witness for C10 at the 2-point polyline (0,0),(100,0). -/
theorem degenerate_polyline_identity_witness :
    getChamferPoints 15 [0, 0, 100, 0] = [0, 0, 100, 0] ∧
    getFilletPoints 15 [0, 0, 100, 0] = [0, 0, 100, 0] ∧
    getChamferPointsJS 15 none = none ∧ getFilletPointsJS 15 none = none ∧
    ∀ lt : LineType, renderPoints lt 15 15 [0, 0, 100, 0] = [0, 0, 100, 0] :=
  degenerate_polyline_identity 15 15 [0, 0, 100, 0] (by norm_num)

theorem hypot_m30 : hypot (-30 : ℝ) 0 = 30 := by
  rw [hypot_zero_right, abs_of_nonpos (by norm_num)]
  norm_num

theorem hypot_p30 : hypot (30 : ℝ) 0 = 30 := by
  rw [hypot_zero_right, abs_of_nonneg (by norm_num)]

theorem hypot_0_30 : hypot (0 : ℝ) 30 = 30 := by
  rw [hypot_zero_left, abs_of_nonneg (by norm_num)]

theorem collinear_scenario : allCollinear [((0 : ℝ), (0 : ℝ)), (30, 0), (60, 0)] := by
  refine ⟨?_, trivial⟩
  unfold collinearAt
  norm_num [hypot_m30, hypot_p30]

theorem chamfer_scenario_eval :
    getChamferPoints 15 [0, 0, 30, 0, 60, 0] = [0, 0, 15, 0, 45, 0, 60, 0] := by
  unfold getChamferPoints
  rw [if_neg (by norm_num)]
  rw [show ([0, 0, 30, 0, 60, 0] : List ℝ).take 2 = [0, 0] from rfl]
  rw [show lastTwo ([0, 0, 30, 0, 60, 0] : List ℝ) = [60, 0] from rfl]
  rw [show toPoints ([0, 0, 30, 0, 60, 0] : List ℝ) = [(0, 0), (30, 0), (60, 0)] from rfl]
  rw [show chamferInterior 15 [((0 : ℝ), (0 : ℝ)), (30, 0), (60, 0)] =
      chamferCorner 15 (0, 0) (30, 0) (60, 0) ++ [] from rfl]
  rw [List.append_nil]
  have hcc : chamferCorner 15 ((0 : ℝ), (0 : ℝ)) (30, 0) (60, 0) = [15, 0, 45, 0] := by
    simp only [chamferCorner]
    norm_num [hypot_m30, hypot_p30]
  rw [hcc]
  rfl

theorem chamfer_corner90_eval :
    getChamferPoints 15 [0, 0, 30, 0, 30, 30] = [0, 0, 15, 0, 30, 15, 30, 30] := by
  unfold getChamferPoints
  rw [if_neg (by norm_num)]
  rw [show ([0, 0, 30, 0, 30, 30] : List ℝ).take 2 = [0, 0] from rfl]
  rw [show lastTwo ([0, 0, 30, 0, 30, 30] : List ℝ) = [30, 30] from rfl]
  rw [show toPoints ([0, 0, 30, 0, 30, 30] : List ℝ) = [(0, 0), (30, 0), (30, 30)] from rfl]
  rw [show chamferInterior 15 [((0 : ℝ), (0 : ℝ)), (30, 0), (30, 30)] =
      chamferCorner 15 (0, 0) (30, 0) (30, 30) ++ [] from rfl]
  rw [List.append_nil]
  have hcc : chamferCorner 15 ((0 : ℝ), (0 : ℝ)) (30, 0) (30, 30) = [15, 0, 30, 15] := by
    simp only [chamferCorner]
    norm_num [hypot_m30, hypot_0_30]
  rw [hcc]
  rfl

/-! ### Claim C1 -/

/-- C1 (counterexample): the polyline (0,0),(30,0),(60,0) is collinear with
non-degenerate segments, yet the chamfer transform (at the default chamfer
length 15) does not leave the interior vertex (30,0) unchanged: the output is
(0,0),(15,0),(45,0),(60,0), and (30,0) appears nowhere in it. -/
theorem corner_collinear_counterexample :
    allCollinear [((0 : ℝ), (0 : ℝ)), (30, 0), (60, 0)] ∧
    getChamferPoints 15 [0, 0, 30, 0, 60, 0] = [0, 0, 15, 0, 45, 0, 60, 0] ∧
    ((30 : ℝ), (0 : ℝ)) ∉ toPoints (getChamferPoints 15 [0, 0, 30, 0, 60, 0]) := by
  refine ⟨collinear_scenario, chamfer_scenario_eval, ?_⟩
  rw [chamfer_scenario_eval]
  rw [show toPoints ([0, 0, 15, 0, 45, 0, 60, 0] : List ℝ) =
      [(0, 0), (15, 0), (45, 0), (60, 0)] from rfl]
  norm_num [Prod.ext_iff]

/-- C1 (amended): on a polyline whose interior vertices all have collinear,
non-degenerate adjacent segments, the fillet transform returns the point
sequence unchanged; the chamfer transform preserves the first and the last
point (its interior vertices are replaced by chamfer offset pairs, not kept). -/
theorem corner_collinear_amended (r L : ℝ) (l : List Pt) (hcol : allCollinear l) :
    getFilletPoints r (ofPoints l) = ofPoints l ∧
    (getChamferPoints L (ofPoints l)).take 2 = (ofPoints l).take 2 ∧
    lastTwo (getChamferPoints L (ofPoints l)) = lastTwo (ofPoints l) := by
  refine ⟨?_, chamfer_take_two L (ofPoints l), chamfer_lastTwo L (ofPoints l)⟩
  by_cases hlen : (ofPoints l).length < 6
  · simp [getFilletPoints, hlen]
  · rcases l with _ | ⟨p0, _ | ⟨p1, _ | ⟨p2, rest⟩⟩⟩
    · exact absurd (by norm_num [ofPoints]) hlen
    · exact absurd (by norm_num [ofPoints]) hlen
    · exact absurd (by norm_num [ofPoints]) hlen
    · unfold getFilletPoints
      rw [if_neg hlen, toPoints_ofPoints]
      rw [filletInterior_collinear r (p2 :: rest) p0 p1 hcol]
      rw [lastTwo_ofPoints_cons p0 (p1 :: p2 :: rest) (by simp)]
      rw [show (ofPoints (p0 :: p1 :: p2 :: rest)).take 2 = [p0.1, p0.2] from rfl]
      rw [List.append_assoc]
      rw [ofPoints_dropLast_lastTwo (p1 :: p2 :: rest) (by simp)]
      rfl

/-- Witness for the amended C1 at the collinear polyline (0,0),(30,0),(60,0). -/
theorem corner_collinear_amended_witness :
    getFilletPoints 15 (ofPoints [((0 : ℝ), (0 : ℝ)), (30, 0), (60, 0)]) =
      ofPoints [((0 : ℝ), (0 : ℝ)), (30, 0), (60, 0)] ∧
    (getChamferPoints 15 (ofPoints [((0 : ℝ), (0 : ℝ)), (30, 0), (60, 0)])).take 2 =
      (ofPoints [((0 : ℝ), (0 : ℝ)), (30, 0), (60, 0)]).take 2 ∧
    lastTwo (getChamferPoints 15 (ofPoints [((0 : ℝ), (0 : ℝ)), (30, 0), (60, 0)])) =
      lastTwo (ofPoints [((0 : ℝ), (0 : ℝ)), (30, 0), (60, 0)]) :=
  corner_collinear_amended 15 15 [((0 : ℝ), (0 : ℝ)), (30, 0), (60, 0)] collinear_scenario

/-! ### Claim C2 -/

/-- C2 (counterexample): with the chamfer corner style selected, the on-screen
point sequence of the stored shape (0,0),(30,0),(30,30) is the chamfered
sequence (0,0),(15,0),(30,15),(30,30), but the exported SVG polyline carries
the raw stored points (0,0),(30,0),(30,30) — the two differ. -/
theorem export_render_counterexample :
    toPoints (renderPoints LineType.chamfer 15 15 [0, 0, 30, 0, 30, 30]) =
      [((0 : ℝ), (0 : ℝ)), (15, 0), (30, 15), (30, 30)] ∧
    exportPairs [0, 0, 30, 0, 30, 30] = [((0 : ℝ), (0 : ℝ)), (30, 0), (30, 30)] ∧
    exportPairs [0, 0, 30, 0, 30, 30] ≠
      toPoints (renderPoints LineType.chamfer 15 15 [0, 0, 30, 0, 30, 30]) := by
  have h1 : toPoints (renderPoints LineType.chamfer 15 15 [0, 0, 30, 0, 30, 30]) =
      [((0 : ℝ), (0 : ℝ)), (15, 0), (30, 15), (30, 30)] := by
    show toPoints (getChamferPoints 15 [0, 0, 30, 0, 30, 30]) = _
    rw [chamfer_corner90_eval]
    rfl
  have h2 : exportPairs [0, 0, 30, 0, 30, 30] = [((0 : ℝ), (0 : ℝ)), (30, 0), (30, 30)] :=
    exportPairs_ofPoints [((0 : ℝ), (0 : ℝ)), (30, 0), (30, 30)]
  refine ⟨h1, h2, ?_⟩
  rw [h1, h2]
  simp

/-- C2 (amended): the exported SVG polyline always carries the raw stored
point sequence; this coincides with the on-screen sequence exactly when the
corner style is linear or bezier (which render the raw points), not when
chamfer or fillet is selected. -/
theorem export_render_amended (L r : ℝ) (l : List Pt) :
    exportPairs (ofPoints l) = l ∧
    toPoints (renderPoints LineType.linear L r (ofPoints l)) = l ∧
    toPoints (renderPoints LineType.bezier L r (ofPoints l)) = l :=
  ⟨exportPairs_ofPoints l,
   by simp [renderPoints, toPoints_ofPoints],
   by simp [renderPoints, toPoints_ofPoints]⟩

/-! ### Claim C6 -/

/-- C6: deleting a selected node removes exactly that node and every
connection referencing it, and nothing else: the survivors are the original
shapes in their original order; no survivor carries the node's id or is a
connection incident to it (so no remaining connection references the deleted
node); and every shape that is neither the node nor an incident connection
survives (ids are unique, per the data model). -/
theorem delete_node_spec (shapes : List Shape) (n : Shape)
    (hmem : n ∈ shapes) (hnode : n.type = "node")
    (hu : (shapes.map Shape.id).Nodup) :
    List.Sublist (handleDelete shapes n.id) shapes ∧
    n ∉ handleDelete shapes n.id ∧
    (∀ s ∈ handleDelete shapes n.id, s.id ≠ n.id ∧
      ¬(s.type = "connection" ∧ (s.node1Id = some n.id ∨ s.node2Id = some n.id))) ∧
    (∀ s ∈ shapes, s ≠ n →
      ¬(s.type = "connection" ∧ (s.node1Id = some n.id ∨ s.node2Id = some n.id)) →
      s ∈ handleDelete shapes n.id) := by
  refine ⟨List.filter_sublist _, ?_, ?_, ?_⟩
  · intro hmem2
    have h := (List.mem_filter.mp hmem2).2
    simp only [decide_eq_true_eq] at h
    exact h.1 rfl
  · intro s hs
    have h := (List.mem_filter.mp hs).2
    simpa only [decide_eq_true_eq] using h
  · intro s hs hne hnc
    apply List.mem_filter.mpr
    refine ⟨hs, ?_⟩
    simp only [decide_eq_true_eq]
    refine ⟨?_, hnc⟩
    intro hid
    exact hne (List.inj_on_of_nodup_map hu hs hmem hid)

/-- Witness for C6: deleting `nodeA` from the concrete collection. -/
theorem delete_node_spec_witness :
    List.Sublist (handleDelete shapes4 nodeA.id) shapes4 ∧
    nodeA ∉ handleDelete shapes4 nodeA.id ∧
    (∀ s ∈ handleDelete shapes4 nodeA.id, s.id ≠ nodeA.id ∧
      ¬(s.type = "connection" ∧ (s.node1Id = some nodeA.id ∨ s.node2Id = some nodeA.id))) ∧
    (∀ s ∈ shapes4, s ≠ nodeA →
      ¬(s.type = "connection" ∧ (s.node1Id = some nodeA.id ∨ s.node2Id = some nodeA.id)) →
      s ∈ handleDelete shapes4 nodeA.id) :=
  delete_node_spec shapes4 nodeA (by simp [shapes4]) rfl
    (by rw [show shapes4.map Shape.id = [1, 2, 3, 4] from rfl]; decide)

/-! ### Claim C7 -/

/-- C7: moving a node updates, in one single map over the shape collection,
the node's stored position, the first point of every connection whose
`node1Id` matches, and the last point of every connection whose `node2Id`
matches; every non-incident connection and every other shape at its position
stays value-identical (only the `points` list is rebuilt, with equal values). -/
theorem drag_node_spec (shapes : List Shape) (nid : ℤ) (x y : ℝ) (i : ℕ) (s : Shape)
    (hs : shapes.get? i = some s) :
    (s.id = nid → (handleNodeDrag shapes nid x y).get? i = some { s with x := x, y := y }) ∧
    (s.id ≠ nid → s.type = "connection" → s.node1Id = some nid → s.node2Id ≠ some nid →
      (handleNodeDrag shapes nid x y).get? i =
        some { s with points := (s.points.set 0 x).set 1 y }) ∧
    (s.id ≠ nid → s.type = "connection" → s.node2Id = some nid → s.node1Id ≠ some nid →
      (handleNodeDrag shapes nid x y).get? i =
        some { s with points :=
          (s.points.set (s.points.length - 2) x).set (s.points.length - 1) y }) ∧
    (s.id ≠ nid → ¬(s.type = "connection" ∧ (s.node1Id = some nid ∨ s.node2Id = some nid)) →
      (handleNodeDrag shapes nid x y).get? i = some s) := by
  have hmap : (handleNodeDrag shapes nid x y).get? i = some (dragShape nid x y s) := by
    unfold handleNodeDrag
    rw [List.get?_map, hs]
    rfl
  refine ⟨?_, ?_, ?_, ?_⟩
  · intro h
    rw [hmap]
    simp only [dragShape]
    rw [if_pos h]
  · intro h1 h2 h3 h4
    rw [hmap]
    simp only [dragShape, dragConnPoints]
    rw [if_neg h1, if_pos h2, if_pos h3, if_neg h4]
  · intro h1 h2 h3 h4
    rw [hmap]
    simp only [dragShape, dragConnPoints]
    rw [if_neg h1, if_pos h2, if_neg h4, if_pos h3]
  · intro h1 h2
    rw [hmap]
    by_cases hc : s.type = "connection"
    · have hn1 : s.node1Id ≠ some nid := fun h => h2 ⟨hc, Or.inl h⟩
      have hn2 : s.node2Id ≠ some nid := fun h => h2 ⟨hc, Or.inr h⟩
      simp only [dragShape, dragConnPoints]
      rw [if_neg h1, if_pos hc, if_neg hn1, if_neg hn2]
    · simp only [dragShape]
      rw [if_neg h1, if_neg hc]

/-- Witness for C7: dragging `nodeA` to (30, 0) updates the first point of the
incident connection `connAB` (list position 2). -/
theorem drag_node_spec_witness :
    (connAB.id = nodeA.id →
      (handleNodeDrag shapes4 nodeA.id 30 0).get? 2 = some { connAB with x := 30, y := 0 }) ∧
    (connAB.id ≠ nodeA.id → connAB.type = "connection" → connAB.node1Id = some nodeA.id →
      connAB.node2Id ≠ some nodeA.id →
      (handleNodeDrag shapes4 nodeA.id 30 0).get? 2 =
        some { connAB with points := (connAB.points.set 0 30).set 1 0 }) ∧
    (connAB.id ≠ nodeA.id → connAB.type = "connection" → connAB.node2Id = some nodeA.id →
      connAB.node1Id ≠ some nodeA.id →
      (handleNodeDrag shapes4 nodeA.id 30 0).get? 2 =
        some { connAB with points :=
          (connAB.points.set (connAB.points.length - 2) 30).set (connAB.points.length - 1) 0 }) ∧
    (connAB.id ≠ nodeA.id →
      ¬(connAB.type = "connection" ∧
        (connAB.node1Id = some nodeA.id ∨ connAB.node2Id = some nodeA.id)) →
      (handleNodeDrag shapes4 nodeA.id 30 0).get? 2 = some connAB) :=
  drag_node_spec shapes4 nodeA.id 30 0 2 connAB rfl

/-! ### Claim C8 -/

/-- C8: with a non-outline connection selected, a resistance edit whose parsed
value is `NaN` or nonpositive causes no mutation at all — the shape
collection, selection, and widths are untouched and only the displayed text is
restored to the last valid resistance; a positive parsed value is the only
input that writes the solved width (to the global trace width, the selected
connection, and the stored shape) and records the entered resistance. -/
theorem resistance_blur_spec (st : ResistState) (conn : Shape) (Rval : Option ℝ)
    (h1 : st.selectedConnection = some conn) (h2 : conn.layer ≠ "outline") :
    ((Rval = none ∨ ∃ R, Rval = some R ∧ R ≤ 0) →
      handleResistanceBlur st Rval = { st with tempDisplay := st.resistance }) ∧
    (∀ R, Rval = some R → 0 < R →
      (handleResistanceBlur st Rval).traceWidth =
        widthFromResistance R conn.material conn.points ∧
      (handleResistanceBlur st Rval).selectedConnection =
        some { conn with width := widthFromResistance R conn.material conn.points } ∧
      (handleResistanceBlur st Rval).shapes = st.shapes.map (fun s =>
        if s.id = conn.id
        then { conn with width := widthFromResistance R conn.material conn.points }
        else s) ∧
      (handleResistanceBlur st Rval).resistance = R) := by
  constructor
  · rintro (rfl | ⟨R, rfl, hle⟩)
    · simp only [handleResistanceBlur, h1]
      rw [if_neg h2]
    · simp only [handleResistanceBlur, h1]
      rw [if_neg h2, if_pos hle]
  · rintro R rfl hpos
    have hred : handleResistanceBlur st (some R) =
        { handleWidthChange st (widthFromResistance R conn.material conn.points) with
          resistance := R } := by
      simp only [handleResistanceBlur, h1]
      rw [if_neg h2, if_neg (not_le.mpr hpos)]
    have hupd : handleWidthChange st (widthFromResistance R conn.material conn.points) =
        { st with
          traceWidth := widthFromResistance R conn.material conn.points,
          shapes := st.shapes.map (fun s =>
            if s.id = conn.id
            then { conn with width := widthFromResistance R conn.material conn.points }
            else s),
          selectedConnection :=
            some { conn with width := widthFromResistance R conn.material conn.points },
          resistance := round2 (calculateResistance conn.points conn.material
            (widthFromResistance R conn.material conn.points)),
          tempDisplay := round2 (calculateResistance conn.points conn.material
            (widthFromResistance R conn.material conn.points)) } := by
      simp only [handleWidthChange, h1]
      rw [if_neg h2]
    rw [hred, hupd]
    exact ⟨rfl, rfl, rfl, rfl⟩

/-- Witness for C8: a `NaN` edit on the concrete state leaves everything but
the displayed text unchanged. -/
theorem resistance_blur_spec_witness :
    (((none : Option ℝ) = none ∨ ∃ R : ℝ, (none : Option ℝ) = some R ∧ R ≤ 0) →
      handleResistanceBlur stAB none = { stAB with tempDisplay := stAB.resistance }) ∧
    (∀ R : ℝ, (none : Option ℝ) = some R → 0 < R →
      (handleResistanceBlur stAB none).traceWidth =
        widthFromResistance R connAB.material connAB.points ∧
      (handleResistanceBlur stAB none).selectedConnection =
        some { connAB with width := widthFromResistance R connAB.material connAB.points } ∧
      (handleResistanceBlur stAB none).shapes = stAB.shapes.map (fun s =>
        if s.id = connAB.id
        then { connAB with width := widthFromResistance R connAB.material connAB.points }
        else s) ∧
      (handleResistanceBlur stAB none).resistance = R) :=
  resistance_blur_spec stAB connAB none rfl (by simp [connAB])

/-! ### Claim C9 -/

/-- C9: finishing an outline with fewer than 2 accumulated points creates no
shape and clears the drawing-mode state; with 2 or more points it appends
exactly one outline shape whose point sequence is the path with its first
point appended at the end, so the closed sequence starts and ends at the same
point. -/
theorem finish_outline_spec (st : OutlineState) (newId : ℤ) (l : List Pt)
    (hpath : st.outlinePath = ofPoints l) :
    (l.length < 2 →
      finishOutline st newId = { st with outlinePath := [], isDrawingOutline := false }) ∧
    (∀ p l2, l = p :: l2 → l2 ≠ [] →
      finishOutline st newId = { st with
        shapes := st.shapes ++
          [{ id := newId, type := "outline",
             points := st.outlinePath ++ [p.1, p.2],
             width := st.traceWidth, color := "limegreen", layer := "outline" }],
        outlinePath := [], isDrawingOutline := false } ∧
      (toPoints (st.outlinePath ++ [p.1, p.2])).head? = some p ∧
      (toPoints (st.outlinePath ++ [p.1, p.2])).getLast? = some p) := by
  constructor
  · intro hlen
    have h4 : st.outlinePath.length < 4 := by
      rw [hpath, ofPoints_length]; omega
    simp only [finishOutline]
    rw [if_pos h4]
  · intro p l2 hl hne
    subst hl
    have hlen4 : ¬ st.outlinePath.length < 4 := by
      rw [hpath, ofPoints_length]
      cases l2 with
      | nil => exact absurd rfl hne
      | cons q l3 => simp [List.length_cons]; omega
    have hsx : st.outlinePath.getD 0 0 = p.1 := by rw [hpath]; rfl
    have hsy : st.outlinePath.getD 1 0 = p.2 := by rw [hpath]; rfl
    refine ⟨?_, ?_, ?_⟩
    · simp only [finishOutline]
      rw [if_neg hlen4, hsx, hsy]
    · rw [hpath]
      rw [show ofPoints (p :: l2) ++ [p.1, p.2] = ofPoints ((p :: l2) ++ [p]) by
        rw [ofPoints_append]; rfl]
      rw [toPoints_ofPoints]
      rfl
    · rw [hpath]
      rw [show ofPoints (p :: l2) ++ [p.1, p.2] = ofPoints ((p :: l2) ++ [p]) by
        rw [ofPoints_append]; rfl]
      rw [toPoints_ofPoints]
      exact List.getLast?_concat _

/-- Witness for C9 at the concrete 3-point path (0,0),(30,0),(30,30). -/
theorem finish_outline_spec_witness :
    (([((0 : ℝ), (0 : ℝ)), (30, 0), (30, 30)] : List Pt).length < 2 →
      finishOutline stOutline 9 =
        { stOutline with outlinePath := [], isDrawingOutline := false }) ∧
    (∀ p l2, ([((0 : ℝ), (0 : ℝ)), (30, 0), (30, 30)] : List Pt) = p :: l2 → l2 ≠ [] →
      finishOutline stOutline 9 = { stOutline with
        shapes := stOutline.shapes ++
          [{ id := 9, type := "outline",
             points := stOutline.outlinePath ++ [p.1, p.2],
             width := stOutline.traceWidth, color := "limegreen", layer := "outline" }],
        outlinePath := [], isDrawingOutline := false } ∧
      (toPoints (stOutline.outlinePath ++ [p.1, p.2])).head? = some p ∧
      (toPoints (stOutline.outlinePath ++ [p.1, p.2])).getLast? = some p) :=
  finish_outline_spec stOutline 9 [((0 : ℝ), (0 : ℝ)), (30, 0), (30, 30)] rfl
